import Mathlib

/-!
Verification of the exoplanet record-reconciliation core:
identifier normalization, disposition reconciliation, schema mapping,
deduplication, and prediction matching, shallowly embedded from the
Python sources (`generate_final_output.py`, `convert_to_standard_format.py`,
`tests/script.py`).  Strings are modelled as lists of characters with
ASCII semantics for case folding and digit tests.
-/

namespace Exo

/-! ### Character and string helpers (Python `str` semantics, ASCII) -/

/-- Python `str.strip` whitespace class (ASCII part). -/
def pyIsSpace (c : Char) : Bool :=
  c = ' ' || c = '\t' || c = '\n' || c = '\r' || c = '\x0b' || c = '\x0c'

/-- ASCII digit test, Python `str.isdigit` on ASCII input. -/
def isAsciiDigit (c : Char) : Bool :=
  '0' ≤ c && c ≤ '9'

/-- ASCII upper-casing of a character, Python `str.upper` on ASCII input. -/
def asciiUpper (c : Char) : Char :=
  if 'a' ≤ c && c ≤ 'z' then Char.ofNat (c.toNat - 32) else c

/-- Upper-case a character list. -/
def upperL (l : List Char) : List Char :=
  l.map asciiUpper

/-- Left strip: drop leading whitespace (`str.lstrip`). -/
def lstripL (l : List Char) : List Char :=
  l.dropWhile pyIsSpace

/-- Right strip: drop trailing whitespace (`str.rstrip`), structurally. -/
def rstripL : List Char → List Char
  | [] => []
  | c :: t =>
    if (rstripL t).isEmpty && pyIsSpace c then [] else c :: rstripL t

/-- Python `str.strip`: remove whitespace at both ends. -/
def stripL (l : List Char) : List Char :=
  lstripL (rstripL l)

/-! ### Identifier Normalizer (`generate_final_output.normalize_object_name`) -/

/-- The recognized mission name tags, in the source's fixed order:
`K`, `KOI-`, `KOI `, `TOI-`, `TOI `, `EPIC `, `EPIC-`. -/
def missionTags : List (List Char) :=
  [['K'], "KOI-".data, "KOI ".data, "TOI-".data, "TOI ".data,
   "EPIC ".data, "EPIC-".data]

/-- `name.upper().startswith(tag.upper())` for one tag. -/
def matchesTag (name tag : List Char) : Bool :=
  (upperL tag).isPrefixOf (upperL name)

/-- The `for tag in tags: ... break` loop: strip the first matching tag. -/
def stripTagAux : List (List Char) → List Char → List Char
  | [], name => name
  | t :: ts, name =>
    if matchesTag name t then name.drop t.length else stripTagAux ts name

/-- Strip exactly one recognized mission tag from the start of the name. -/
def stripMissionTag (name : List Char) : List Char :=
  stripTagAux missionTags name

/-- Whether the name starts with some recognized mission tag. -/
def hasMissionTag (name : List Char) : Bool :=
  missionTags.any (matchesTag name)

/-- Python `parts[0].isdigit()`: nonempty and all ASCII digits. -/
def pyIsDigitAll (l : List Char) : Bool :=
  !l.isEmpty && l.all isAsciiDigit

/-- `str(int(h))` for an all-digit `h`: drop leading zeros, keep one `0`. -/
def stripZeros (l : List Char) : List Char :=
  let r := l.dropWhile (fun c => c = '0')
  if r.isEmpty then ['0'] else r

/-- `parts[0] = str(int(parts[0])) if parts[0].isdigit() else parts[0]`. -/
def canonHead (h : List Char) : List Char :=
  if pyIsDigitAll h then stripZeros h else h

/-- The `if '.' in name` block: canonicalize the head before the first
decimal point and leave everything after it unchanged (equivalent to the
source's split-on-all-dots, fix `parts[0]`, rejoin-with-dots). -/
def dotProcess (name : List Char) : List Char :=
  if name.contains '.' then
    canonHead (name.takeWhile (fun c => c ≠ '.')) ++
      name.dropWhile (fun c => c ≠ '.')
  else name

/-- `normalize_object_name` on a character list; `none` models a
missing (`pd.isna`) value. -/
def normalizeL : Option (List Char) → List Char
  | none => []
  | some n => stripL (dotProcess (stripMissionTag (stripL n)))

/-- `normalize_object_name` at `String` type. -/
def normalize_object_name (s : Option String) : String :=
  String.mk (normalizeL (s.map String.data))

/-- ASCII upper-casing at `String` type (`str.upper`). -/
def upperS (s : String) : String :=
  String.mk (upperL s.data)

/-! ### Disposition Reconciler

Two reconciliation paths exist in the source: the converter path
(`convert_to_standard_format.convert_tess_to_standard`, a literal
`disposition_map` applied with `.map(...).fillna(raw)`) and the extended
path (`tests/script.normalize_disposition_extended`, which upper-cases
the raw value first and has per-mission tables). -/

/-- The `disposition_map` literal of `convert_tess_to_standard`. -/
def tess_disposition_map (s : String) : Option String :=
  if s = "CP" then some "CANDIDATE"
  else if s = "FP" then some "FALSE POSITIVE"
  else if s = "PC" then some "CANDIDATE"
  else if s = "APC" then some "CANDIDATE"
  else if s = "KP" then some "CONFIRMED"
  else none

/-- `df['tfopwg_disp'].map(disposition_map).fillna(df['tfopwg_disp'])`. -/
def convertTessDisposition (s : String) : String :=
  (tess_disposition_map s).getD s

/-- TESS table of `normalize_disposition_extended`. -/
def tessExtendedMap (s : String) : Option String :=
  if s = "PC" then some "CANDIDATE"
  else if s = "CP" then some "CONFIRMED"
  else if s = "KP" then some "CONFIRMED"
  else if s = "FP" then some "FALSE POSITIVE"
  else if s = "APC" then some "CANDIDATE"
  else if s = "FA" then some "FALSE POSITIVE"
  else if s = "NTP" then some "FALSE POSITIVE"
  else if s = "EB" then some "FALSE POSITIVE"
  else if s = "IS" then some "FALSE POSITIVE"
  else if s = "V" then some "FALSE POSITIVE"
  else if s = "BEB" then some "FALSE POSITIVE"
  else none

/-- Kepler table of `normalize_disposition_extended`. -/
def keplerExtendedMap (s : String) : Option String :=
  if s = "CONFIRMED" then some "CONFIRMED"
  else if s = "FALSE POSITIVE" then some "FALSE POSITIVE"
  else if s = "CANDIDATE" then some "CANDIDATE"
  else none

/-- K2 table of `normalize_disposition_extended`. -/
def k2ExtendedMap (s : String) : Option String :=
  if s = "C" then some "CONFIRMED"
  else if s = "K" then some "CONFIRMED"
  else if s = "F" then some "FALSE POSITIVE"
  else if s = "P" then some "CANDIDATE"
  else if s = "U" then some "CANDIDATE"
  else none

/-- Generic table of `normalize_disposition_extended` (other missions). -/
def genericExtendedMap (s : String) : Option String :=
  if s = "CONFIRMED" then some "CONFIRMED"
  else if s = "PLANET" then some "CONFIRMED"
  else if s = "FALSE POSITIVE" then some "FALSE POSITIVE"
  else if s = "FP" then some "FALSE POSITIVE"
  else if s = "CANDIDATE" then some "CANDIDATE"
  else if s = "BINARY" then some "FALSE POSITIVE"
  else if s = "VARIABLE" then some "FALSE POSITIVE"
  else none

/-- Per-value behaviour of `normalize_disposition_extended`: upper-case
the raw value, look it up in the mission table, fall back to the
upper-cased raw value when unmapped. -/
def normalize_disposition_extended (mission : String) (raw : String) : String :=
  let u := upperS raw
  let table :=
    if mission = "TESS" then tessExtendedMap
    else if mission = "Kepler" then keplerExtendedMap
    else if mission = "K2" then k2ExtendedMap
    else genericExtendedMap
  (table u).getD u

/-! ### Canonical records and the Prediction Matcher
(`generate_final_output.match_predictions_with_data`) -/

/-- The nine-field canonical record.  `object_name` is optional because a
CSV cell can be missing (`pd.isna`); the five physical measurements use
`none` as the unknown marker (NaN). -/
structure CanonicalRecord where
  mission : String
  object_name : Option String
  disposition : String
  period : Option ℚ
  planet_radius : Option ℚ
  star_temp : Option ℚ
  star_radius : Option ℚ
  star_mass : Option ℚ
  discovery_facility : String
deriving DecidableEq

/-- One row of the external prediction table. -/
structure Prediction where
  object_name : Option String
  predicted_probability : ℚ
deriving DecidableEq

/-- Search an association list for a key (dictionary membership/get). -/
def lookupFind (l : List (String × CanonicalRecord)) (k : String) :
    Option CanonicalRecord :=
  (l.find? (fun p => p.1 = k)).map (fun p => p.2)

/-- The lookup-building loop: iterate the records in order, and insert
`normalized_name -> row` when the normalized name is nonempty and not
already a key (`if norm_name and norm_name not in data_lookup`). -/
def buildLookupAux (acc : List (String × CanonicalRecord)) :
    List CanonicalRecord → List (String × CanonicalRecord)
  | [] => acc
  | r :: t =>
    let k := normalize_object_name r.object_name
    if k ≠ "" ∧ lookupFind acc k = none then
      buildLookupAux (acc ++ [(k, r)]) t
    else
      buildLookupAux acc t

/-- `data_lookup` built from the full record table. -/
def buildLookup (records : List CanonicalRecord) :
    List (String × CanonicalRecord) :=
  buildLookupAux [] records

/-- Loop body for one prediction at zero-based input position `idx`. -/
def matchRow (lookup : List (String × CanonicalRecord)) (threshold : ℚ)
    (idx : Nat) (p : Prediction) : CanonicalRecord :=
  let pd := if p.predicted_probability ≥ threshold then "CONFIRMED"
            else "FALSE POSITIVE"
  match lookupFind lookup (normalize_object_name p.object_name) with
  | some r => { r with disposition := pd }
  | none =>
    { mission := "ARCHIVE"
      object_name := some ("PLANET_" ++ toString idx)
      disposition := pd
      period := none
      planet_radius := none
      star_temp := none
      star_radius := none
      star_mass := none
      discovery_facility := "UNKNOWN" }

/-- The prediction loop, carrying the running zero-based index. -/
def matchAll (lookup : List (String × CanonicalRecord)) (threshold : ℚ) :
    Nat → List Prediction → List CanonicalRecord
  | _, [] => []
  | i, p :: ps => matchRow lookup threshold i p :: matchAll lookup threshold (i + 1) ps

/-- `match_predictions_with_data`.  The final
`final_df = pd.DataFrame(matched_data); final_df = final_df[column_order]`
raises a `KeyError` when `matched_data` is empty (the column-less empty
frame has none of the nine canonical columns); with at least one row
every row dictionary carries all nine keys, so the reindex succeeds. -/
def match_predictions_with_data (predictions : List Prediction)
    (all_data : List CanonicalRecord) (threshold : ℚ) :
    Except String (List CanonicalRecord) :=
  let lookup := buildLookup all_data
  let out := matchAll lookup threshold 0 predictions
  if out.isEmpty then
    Except.error "KeyError: canonical columns not in index"
  else
    Except.ok out

/-! ### Schema Mapper (`convert_to_standard_format`), one raw row at a
time.  A raw row is modelled as two association lists: string-valued
columns and numeric columns, where an absent key models an absent
DataFrame column and `some none` models a present cell holding NaN. -/

structure RawRow where
  strCells : List (String × String)
  numCells : List (String × Option ℚ)
deriving DecidableEq

/-- `row[c]` for a string column: `none` means the column is absent. -/
def getStrCol (row : RawRow) (c : String) : Option String :=
  (row.strCells.find? (fun p => p.1 = c)).map (fun p => p.2)

/-- `row[c]` for a numeric column: outer `none` means the column is
absent, inner `none` a NaN cell. -/
def getNumCol (row : RawRow) (c : String) : Option (Option ℚ) :=
  (row.numCells.find? (fun p => p.1 = c)).map (fun p => p.2)

/-- `df[c]` for a required string column: `KeyError` when absent. -/
def requireStr (row : RawRow) (c : String) : Except String String :=
  match getStrCol row c with
  | some v => Except.ok v
  | none => Except.error ("KeyError: " ++ c)

/-- `df[c]` for a required numeric column: `KeyError` when absent. -/
def requireNum (row : RawRow) (c : String) : Except String (Option ℚ) :=
  match getNumCol row c with
  | some v => Except.ok v
  | none => Except.error ("KeyError: " ++ c)

/-- `df[c] if c in df.columns else pd.NA` for an optional numeric column. -/
def optionalNum (row : RawRow) (c : String) : Option ℚ :=
  (getNumCol row c).bind id

/-- `convert_kepler_to_standard`, per raw row: every source column is
accessed unguarded, so any absent column raises. -/
def convert_kepler_row (row : RawRow) : Except String CanonicalRecord := do
  let name ← requireStr row "kepoi_name"
  let disp ← requireStr row "koi_disposition"
  let period ← requireNum row "koi_period"
  let prad ← requireNum row "koi_prad"
  let steff ← requireNum row "koi_steff"
  let srad ← requireNum row "koi_srad"
  let smass ← requireNum row "koi_smass"
  pure { mission := "Kepler", object_name := some name, disposition := disp,
         period := period, planet_radius := prad, star_temp := steff,
         star_radius := srad, star_mass := smass,
         discovery_facility := "Kepler" }

/-- `convert_tess_to_standard`, per raw row: `toi` and `tfopwg_disp` are
required, the five physical columns are guarded and default to NA. -/
def convert_tess_row (row : RawRow) : Except String CanonicalRecord := do
  let name ← requireStr row "toi"
  let disp ← requireStr row "tfopwg_disp"
  pure { mission := "TESS", object_name := some name,
         disposition := convertTessDisposition disp,
         period := optionalNum row "pl_orbper",
         planet_radius := optionalNum row "pl_rade",
         star_temp := optionalNum row "st_teff",
         star_radius := optionalNum row "st_rad",
         star_mass := optionalNum row "st_mass",
         discovery_facility := "TESS" }

/-- `convert_k2_to_standard`, per raw row: `epic_name` with fallback
`epic_candname` (absent fallback raises), `k2c_disp` required, the five
physical columns guarded. -/
def convert_k2_row (row : RawRow) : Except String CanonicalRecord := do
  let name ← match getStrCol row "epic_name" with
              | some v => Except.ok v
              | none => requireStr row "epic_candname"
  let disp ← requireStr row "k2c_disp"
  pure { mission := "K2", object_name := some name, disposition := disp,
         period := optionalNum row "pl_orbper",
         planet_radius := optionalNum row "pl_rade",
         star_temp := optionalNum row "st_teff",
         star_radius := optionalNum row "st_rad",
         star_mass := optionalNum row "st_mass",
         discovery_facility := "K2" }

/-! ### Deduplication Engine (`tests/script.main_fixed_fetch`)

The source assigns `priority = disposition.map(CONFIRMED 1, CANDIDATE 2,
FALSE POSITIVE 3)` (anything else becomes NaN, which pandas sorts last,
modelled as 4), sorts by `(object_name, priority)` ascending and keeps
the first row per distinct raw `object_name`. -/

/-- A record as seen by the fetch script: only the fields the
deduplication reads, plus mission provenance. -/
structure SRecord where
  mission : String
  object_name : String
  disposition : String
deriving DecidableEq

/-- Dedup priority: lower wins; unmapped dispositions sort last (NaN). -/
def priorityOf (d : String) : Nat :=
  if d = "CONFIRMED" then 1
  else if d = "CANDIDATE" then 2
  else if d = "FALSE POSITIVE" then 3
  else 4

/-- Code-point lexicographic order on character lists (Python `str` <). -/
def strLtL : List Char → List Char → Bool
  | [], [] => false
  | [], _ :: _ => true
  | _ :: _, [] => false
  | a :: s, b :: t => if a = b then strLtL s t else decide (a.toNat < b.toNat)

/-- Code-point lexicographic order at `String` type. -/
def strLt (a b : String) : Bool :=
  strLtL a.data b.data

/-- The sort key comparison `(object_name, priority)` ascending, as a
boolean total preorder. -/
def recLEb (a b : SRecord) : Bool :=
  strLt a.object_name b.object_name ||
    (a.object_name = b.object_name && priorityOf a.disposition ≤ priorityOf b.disposition)

/-- `recLEb` as a relation, for `List.insertionSort`. -/
def recLE (a b : SRecord) : Prop :=
  recLEb a b = true

instance : DecidableRel recLE :=
  fun a b => inferInstanceAs (Decidable (recLEb a b = true))

/-- `drop_duplicates(subset=['object_name'], keep='first')`, with the set
of already-seen keys as accumulator. -/
def dropDupAux (seen : List String) : List SRecord → List SRecord
  | [] => []
  | r :: t =>
    if r.object_name ∈ seen then dropDupAux seen t
    else r :: dropDupAux (r.object_name :: seen) t

/-- The deduplication of `main_fixed_fetch`: sort by
`(object_name, priority)` then keep the first row per raw name. -/
def dedupe (l : List SRecord) : List SRecord :=
  dropDupAux [] (List.insertionSort recLE l)

/-! ### Lemmas about stripping -/

theorem lstripL_idem (l : List Char) : lstripL (lstripL l) = lstripL l := by
  induction l with
  | nil => rfl
  | cons c t ih =>
    by_cases h : pyIsSpace c = true
    · simp [lstripL, List.dropWhile, h] at ih ⊢
      simpa [lstripL] using ih
    · simp [lstripL, List.dropWhile, h]

theorem rstripL_idem (l : List Char) : rstripL (rstripL l) = rstripL l := by
  induction l with
  | nil => rfl
  | cons c t ih =>
    by_cases h : ((rstripL t).isEmpty && pyIsSpace c) = true
    · simp [rstripL, h]
    · have e1 : rstripL (c :: t) = c :: rstripL t := by
        simp only [rstripL]
        rw [if_neg h]
      rw [e1]
      simp only [rstripL]
      rw [ih, if_neg h]

theorem rstripL_lstripL_of_fixed (l : List Char) (h : rstripL l = l) :
    rstripL (lstripL l) = lstripL l := by
  induction l with
  | nil => rfl
  | cons c t ih =>
    have hsplit : ¬((rstripL t).isEmpty && pyIsSpace c) = true ∧ rstripL t = t := by
      by_cases hc : ((rstripL t).isEmpty && pyIsSpace c) = true
      · rw [rstripL, if_pos hc] at h
        exact absurd h (by simp)
      · rw [rstripL, if_neg hc] at h
        exact ⟨hc, by injection h⟩
    by_cases hs : pyIsSpace c = true
    · have := ih hsplit.2
      simpa [lstripL, List.dropWhile, hs] using this
    · simp only [lstripL, List.dropWhile, hs]
      exact h

theorem stripL_idem (l : List Char) : stripL (stripL l) = stripL l := by
  unfold stripL
  rw [rstripL_lstripL_of_fixed (rstripL l) (rstripL_idem l), lstripL_idem]

/-- If no recognized mission tag matches, the tag-stripping loop is the
identity. -/
theorem stripTagAux_of_no_match (ts : List (List Char)) (name : List Char)
    (h : ∀ t ∈ ts, matchesTag name t = false) : stripTagAux ts name = name := by
  induction ts with
  | nil => rfl
  | cons t ts ih =>
    have ht : matchesTag name t = false := h t (by simp)
    rw [stripTagAux, ht]
    exact ih (fun u hu => h u (by simp [hu]))

theorem stripMissionTag_of_no_tag (name : List Char)
    (h : hasMissionTag name = false) : stripMissionTag name = name := by
  apply stripTagAux_of_no_match
  intro t ht
  by_contra hc
  have : missionTags.any (matchesTag name) = true :=
    List.any_eq_true.mpr ⟨t, ht, by simpa using hc⟩
  rw [hasMissionTag] at h
  simp [this] at h

theorem takeWhile_append_dropWhile_eq (p : Char → Bool) (l : List Char) :
    l.takeWhile p ++ l.dropWhile p = l := by
  induction l with
  | nil => rfl
  | cons c t ih =>
    by_cases h : p c = true
    · simp [List.takeWhile, List.dropWhile, h, ih]
    · simp [List.takeWhile, List.dropWhile, h]

/-- The normalizer's output is already stripped. -/
theorem stripL_normalizeL (s : Option (List Char)) :
    stripL (normalizeL s) = normalizeL s := by
  cases s with
  | none => rfl
  | some n =>
    simp only [normalizeL]
    exact stripL_idem _

/-- Amended idempotence: a second pass is the identity provided the first
pass's output does not start with a recognized mission tag and its head
before the first decimal point is a fixed point of leading-zero
canonicalization. -/
theorem normalizeL_idem (s : Option (List Char))
    (h1 : hasMissionTag (normalizeL s) = false)
    (h2 : canonHead ((normalizeL s).takeWhile (fun c => c ≠ '.')) =
          (normalizeL s).takeWhile (fun c => c ≠ '.')) :
    normalizeL (some (normalizeL s)) = normalizeL s := by
  set y := normalizeL s with hy
  show stripL (dotProcess (stripMissionTag (stripL y))) = y
  rw [hy, stripL_normalizeL, ← hy]
  rw [stripMissionTag_of_no_tag y h1]
  have hdot : dotProcess y = y := by
    unfold dotProcess
    by_cases hc : y.contains '.' = true
    · rw [if_pos hc, h2, takeWhile_append_dropWhile_eq]
    · rw [if_neg hc]
  rw [hdot, hy, stripL_normalizeL]

/-! ### Lemmas about the matcher's lookup -/

theorem find?_append_left {α : Type} {p : α → Bool} {l1 l2 : List α} {x : α}
    (h : l1.find? p = some x) : (l1 ++ l2).find? p = some x := by
  simp [List.find?_append, h]

theorem find?_append_right {α : Type} {p : α → Bool} {l1 l2 : List α}
    (h : l1.find? p = none) : (l1 ++ l2).find? p = l2.find? p := by
  simp [List.find?_append, h]

/-- Keys already present in the accumulator survive the lookup build. -/
theorem buildLookupAux_preserves (data : List CanonicalRecord) :
    ∀ (acc : List (String × CanonicalRecord)) (k : String) (r : CanonicalRecord),
      lookupFind acc k = some r →
      lookupFind (buildLookupAux acc data) k = some r := by
  induction data with
  | nil => intro acc k r h; exact h
  | cons rcd t ih =>
    intro acc k r h
    rw [buildLookupAux]
    by_cases hc : normalize_object_name rcd.object_name ≠ "" ∧
        lookupFind acc (normalize_object_name rcd.object_name) = none
    · rw [if_pos hc]
      apply ih
      unfold lookupFind at h ⊢
      cases hfind : acc.find? (fun p => p.1 = k) with
      | none => rw [hfind] at h; exact absurd h (by simp)
      | some x =>
        rw [find?_append_left hfind]
        rw [hfind] at h
        exact h
    · rw [if_neg hc]
      exact ih acc k r h

/-- The lookup built by the matcher maps a nonempty key to the first
record in the data whose normalized name equals it. -/
theorem buildLookupAux_first_seen (data : List CanonicalRecord) :
    ∀ (acc : List (String × CanonicalRecord)) (k : String), k ≠ "" →
      lookupFind acc k = none →
      lookupFind (buildLookupAux acc data) k =
        data.find? (fun rec => normalize_object_name rec.object_name == k) := by
  induction data with
  | nil => intro acc k _ hnone; exact hnone
  | cons rcd t ih =>
    intro acc k hk hnone
    rw [buildLookupAux]
    by_cases hc : normalize_object_name rcd.object_name ≠ "" ∧
        lookupFind acc (normalize_object_name rcd.object_name) = none
    · rw [if_pos hc]
      by_cases hkey : normalize_object_name rcd.object_name = k
      · have hin : lookupFind (acc ++ [(normalize_object_name rcd.object_name, rcd)]) k =
            some rcd := by
          unfold lookupFind at hnone ⊢
          cases hfind : acc.find? (fun p => p.1 = k) with
          | none =>
            rw [find?_append_right hfind]
            simp [List.find?, hkey]
          | some x => rw [hfind] at hnone; exact absurd hnone (by simp)
        rw [buildLookupAux_preserves t _ k rcd hin]
        simp [List.find?, hkey]
      · have hstill : lookupFind (acc ++ [(normalize_object_name rcd.object_name, rcd)]) k =
            none := by
          unfold lookupFind at hnone ⊢
          cases hfind : acc.find? (fun p => p.1 = k) with
          | none =>
            rw [find?_append_right hfind]
            simp [List.find?, hkey]
          | some x => rw [hfind] at hnone; exact absurd hnone (by simp)
        rw [ih _ k hk hstill]
        have : (fun rec => normalize_object_name rec.object_name == k) rcd = false := by
          simp [hkey]
        simp [List.find?, this]
    · rw [if_neg hc]
      have hkey : normalize_object_name rcd.object_name ≠ k := by
        intro he
        rcases not_and_or.mp hc with h1 | h2
        · exact hk (by rw [← he]; simpa using h1)
        · rw [he] at h2; exact h2 hnone
      rw [ih acc k hk hnone]
      have : (fun rec => normalize_object_name rec.object_name == k) rcd = false := by
        simp [hkey]
      simp [List.find?, this]

/-- The empty canonical key is never a key of the lookup. -/
theorem buildLookupAux_no_empty_key (data : List CanonicalRecord) :
    ∀ (acc : List (String × CanonicalRecord)),
      lookupFind acc "" = none →
      lookupFind (buildLookupAux acc data) "" = none := by
  induction data with
  | nil => intro acc h; exact h
  | cons rcd t ih =>
    intro acc h
    rw [buildLookupAux]
    by_cases hc : normalize_object_name rcd.object_name ≠ "" ∧
        lookupFind acc (normalize_object_name rcd.object_name) = none
    · rw [if_pos hc]
      apply ih
      unfold lookupFind at h ⊢
      cases hfind : acc.find? (fun p => p.1 = "") with
      | none =>
        rw [find?_append_right hfind]
        simp [List.find?, hc.1]
      | some x => rw [hfind] at h; exact absurd h (by simp)
    · rw [if_neg hc]
      exact ih acc h

/-! ### Lemmas about the prediction loop -/

theorem matchAll_length (lookup : List (String × CanonicalRecord))
    (threshold : ℚ) :
    ∀ (k : Nat) (ps : List Prediction),
      (matchAll lookup threshold k ps).length = ps.length := by
  intro k ps
  induction ps generalizing k with
  | nil => rfl
  | cons p t ih => simp [matchAll, ih]

theorem matchAll_getElem (lookup : List (String × CanonicalRecord))
    (threshold : ℚ) :
    ∀ (ps : List Prediction) (k i : Nat) (p : Prediction),
      ps[i]? = some p →
      (matchAll lookup threshold k ps)[i]? =
        some (matchRow lookup threshold (k + i) p) := by
  intro ps
  induction ps with
  | nil => intro k i p h; simp at h
  | cons q t ih =>
    intro k i p h
    cases i with
    | zero =>
      simp at h
      subst h
      simp [matchAll]
    | succ j =>
      simp at h
      have := ih (k + 1) j p (by simpa using h)
      rw [matchAll]
      simpa [Nat.add_comm, Nat.add_left_comm, Nat.add_assoc] using this

/-- When the matcher succeeds, the output is exactly the prediction loop's
output, and the prediction list is nonempty. -/
theorem match_ok_elim (predictions : List Prediction)
    (all_data : List CanonicalRecord) (threshold : ℚ)
    (out : List CanonicalRecord)
    (h : match_predictions_with_data predictions all_data threshold =
         Except.ok out) :
    out = matchAll (buildLookup all_data) threshold 0 predictions := by
  unfold match_predictions_with_data at h
  by_cases he : (matchAll (buildLookup all_data) threshold 0 predictions).isEmpty = true
  · rw [if_pos he] at h
    exact absurd h (by simp)
  · rw [if_neg he] at h
    injection h with h
    exact h.symm

/-! ### Lemmas about the Deduplication Engine -/

theorem charToNat_inj {a b : Char} (h : a.toNat = b.toNat) : a = b := by
  apply Char.eq_of_val_eq
  apply UInt32.eq_of_toBitVec_eq
  apply BitVec.eq_of_toNat_eq
  exact h

theorem strLtL_irrefl : ∀ l : List Char, strLtL l l = false
  | [] => rfl
  | _ :: s => by rw [strLtL, if_pos rfl]; exact strLtL_irrefl s

theorem strLtL_trans : ∀ a b c : List Char,
    strLtL a b = true → strLtL b c = true → strLtL a c = true
  | [], b, c => fun hab hbc => by
    cases b with
    | nil => simp [strLtL] at hab
    | cons y t =>
      cases c with
      | nil => simp [strLtL] at hbc
      | cons z u => simp [strLtL]
  | x :: s, b, c => fun hab hbc => by
    cases b with
    | nil => simp [strLtL] at hab
    | cons y t =>
      cases c with
      | nil => simp [strLtL] at hbc
      | cons z u =>
        rw [strLtL] at hab hbc ⊢
        by_cases hxy : x = y
        · rw [if_pos hxy] at hab
          by_cases hyz : y = z
          · rw [if_pos (hxy.trans hyz)]
            rw [if_pos hyz] at hbc
            exact strLtL_trans s t u hab hbc
          · rw [if_neg hyz] at hbc
            have hxz : x ≠ z := by
              rw [hxy]
              intro he
              rw [he] at hbc
              simp at hbc
            rw [if_neg hxz, hxy]
            exact hbc
        · rw [if_neg hxy] at hab
          by_cases hyz : y = z
          · have hxz : x ≠ z := fun he => hxy (he.trans hyz.symm)
            rw [if_neg hxz, ← hyz]
            exact hab
          · rw [if_neg hyz] at hbc
            have h1 := of_decide_eq_true hab
            have h2 := of_decide_eq_true hbc
            have hxz : x ≠ z := by
              intro he
              have := Nat.lt_trans h1 h2
              rw [he] at this
              exact Nat.lt_irrefl _ this
            rw [if_neg hxz]
            exact decide_eq_true (Nat.lt_trans h1 h2)

theorem strLtL_total : ∀ a b : List Char,
    strLtL a b = true ∨ a = b ∨ strLtL b a = true
  | [], [] => Or.inr (Or.inl rfl)
  | [], _ :: _ => Or.inl (by simp [strLtL])
  | _ :: _, [] => Or.inr (Or.inr (by simp [strLtL]))
  | x :: s, y :: t => by
    by_cases hxy : x = y
    · rcases strLtL_total s t with h | h | h
      · exact Or.inl (by rw [strLtL, if_pos hxy]; exact h)
      · exact Or.inr (Or.inl (by rw [hxy, h]))
      · exact Or.inr (Or.inr (by rw [strLtL, if_pos hxy.symm]; exact h))
    · have hne : x.toNat ≠ y.toNat := fun he => hxy (charToNat_inj he)
      rcases Nat.lt_or_ge x.toNat y.toNat with hlt | hge
      · exact Or.inl (by rw [strLtL, if_neg hxy]; exact decide_eq_true hlt)
      · have hgt : y.toNat < x.toNat := Nat.lt_of_le_of_ne hge (fun he => hne he.symm)
        refine Or.inr (Or.inr ?_)
        rw [strLtL, if_neg (Ne.symm hxy)]
        exact decide_eq_true hgt

theorem string_data_inj {a b : String} (h : a.data = b.data) : a = b := by
  cases a
  cases b
  exact congrArg String.mk h

instance : IsTotal SRecord recLE := by
  constructor
  intro a b
  unfold recLE recLEb strLt
  rcases strLtL_total a.object_name.data b.object_name.data with h | h | h
  · exact Or.inl (by simp [h])
  · have he : a.object_name = b.object_name := string_data_inj h
    rcases Nat.le_total (priorityOf a.disposition) (priorityOf b.disposition) with hp | hp
    · exact Or.inl (by simp [he, hp])
    · exact Or.inr (by simp [he, hp])
  · exact Or.inr (by simp [h])

instance : IsTrans SRecord recLE := by
  constructor
  intro a b c hab hbc
  unfold recLE recLEb strLt at hab hbc ⊢
  rcases Bool.or_eq_true_iff.mp hab with h1 | h1
  · rcases Bool.or_eq_true_iff.mp hbc with h2 | h2
    · exact Bool.or_eq_true_iff.mpr (Or.inl (strLtL_trans _ _ _ h1 h2))
    · have hbc2 : b.object_name = c.object_name :=
        of_decide_eq_true (Bool.and_eq_true_iff.mp h2).1
      rw [← hbc2]
      exact Bool.or_eq_true_iff.mpr (Or.inl h1)
  · have hab2 : a.object_name = b.object_name :=
      of_decide_eq_true (Bool.and_eq_true_iff.mp h1).1
    rcases Bool.or_eq_true_iff.mp hbc with h2 | h2
    · rw [hab2]
      exact Bool.or_eq_true_iff.mpr (Or.inl h2)
    · have hbc2 : b.object_name = c.object_name :=
        of_decide_eq_true (Bool.and_eq_true_iff.mp h2).1
      have hp1 : priorityOf a.disposition ≤ priorityOf b.disposition :=
        of_decide_eq_true (Bool.and_eq_true_iff.mp h1).2
      have hp2 : priorityOf b.disposition ≤ priorityOf c.disposition :=
        of_decide_eq_true (Bool.and_eq_true_iff.mp h2).2
      apply Bool.or_eq_true_iff.mpr
      apply Or.inr
      apply Bool.and_eq_true_iff.mpr
      exact ⟨decide_eq_true (hab2.trans hbc2), decide_eq_true (Nat.le_trans hp1 hp2)⟩

/-- In a comparison between records with the same raw name, the sort key
reduces to the priority. -/
theorem recLE_same_name {a b : SRecord} (h : recLE a b)
    (he : a.object_name = b.object_name) :
    priorityOf a.disposition ≤ priorityOf b.disposition := by
  unfold recLE recLEb strLt at h
  rcases Bool.or_eq_true_iff.mp h with h1 | h1
  · rw [he] at h1
    rw [strLtL_irrefl] at h1
    exact absurd h1 (by simp)
  · exact of_decide_eq_true (Bool.and_eq_true_iff.mp h1).2

/-- Every record kept by the deduplication loop comes from the input and
its key was not previously seen. -/
theorem dropDupAux_mem (l : List SRecord) :
    ∀ (seen : List String) (r : SRecord), r ∈ dropDupAux seen l →
      r.object_name ∉ seen ∧ r ∈ l := by
  induction l with
  | nil => intro seen r h; simp [dropDupAux] at h
  | cons a t ih =>
    intro seen r h
    rw [dropDupAux] at h
    by_cases ha : a.object_name ∈ seen
    · rw [if_pos ha] at h
      rcases ih seen r h with ⟨h1, h2⟩
      exact ⟨h1, List.mem_cons_of_mem a h2⟩
    · rw [if_neg ha] at h
      rcases List.mem_cons.mp h with he | hm
      · subst he
        exact ⟨ha, List.mem_cons_self r t⟩
      · rcases ih _ r hm with ⟨h1, h2⟩
        refine ⟨fun hs => h1 (List.mem_cons_of_mem _ hs), List.mem_cons_of_mem a h2⟩

/-- The deduplication loop emits pairwise-distinct raw names. -/
theorem dropDupAux_pairwise (l : List SRecord) :
    ∀ seen : List String,
      (dropDupAux seen l).Pairwise (fun a b => a.object_name ≠ b.object_name) := by
  induction l with
  | nil => intro seen; simp [dropDupAux]
  | cons a t ih =>
    intro seen
    rw [dropDupAux]
    by_cases ha : a.object_name ∈ seen
    · rw [if_pos ha]
      exact ih seen
    · rw [if_neg ha]
      refine List.pairwise_cons.mpr ⟨?_, ih _⟩
      intro b hb
      have := (dropDupAux_mem t _ b hb).1
      intro he
      exact this (by rw [← he]; exact List.mem_cons_self _ _)

/-- Every input key is represented in the deduplication loop's output. -/
theorem dropDupAux_covers (l : List SRecord) :
    ∀ (seen : List String) (s : SRecord), s ∈ l →
      s.object_name ∈ seen ∨
        ∃ r ∈ dropDupAux seen l, r.object_name = s.object_name := by
  induction l with
  | nil => intro seen s h; simp at h
  | cons a t ih =>
    intro seen s h
    rw [dropDupAux]
    by_cases ha : a.object_name ∈ seen
    · rw [if_pos ha]
      rcases List.mem_cons.mp h with he | hm
      · subst he
        exact Or.inl ha
      · exact ih seen s hm
    · rw [if_neg ha]
      rcases List.mem_cons.mp h with he | hm
      · subst he
        exact Or.inr ⟨s, List.mem_cons_self _ _, rfl⟩
      · rcases ih (a.object_name :: seen) s hm with hs | ⟨r, hr, hre⟩
        · rcases List.mem_cons.mp hs with he | hs2
          · exact Or.inr ⟨a, List.mem_cons_self _ _, he.symm⟩
          · exact Or.inl hs2
        · exact Or.inr ⟨r, List.mem_cons_of_mem a hr, hre⟩

/-- In a sorted run, the record kept for a key has minimal priority among
all records carrying that key. -/
theorem dropDupAux_min_prio (l : List SRecord) :
    ∀ seen : List String, l.Pairwise recLE →
      ∀ r ∈ dropDupAux seen l, ∀ s ∈ l,
        s.object_name = r.object_name →
        priorityOf r.disposition ≤ priorityOf s.disposition := by
  induction l with
  | nil => intro seen _ r hr; simp [dropDupAux] at hr
  | cons a t ih =>
    intro seen hp r hr s hs he
    rcases List.pairwise_cons.mp hp with ⟨hhead, htail⟩
    rw [dropDupAux] at hr
    by_cases ha : a.object_name ∈ seen
    · rw [if_pos ha] at hr
      rcases List.mem_cons.mp hs with hse | hsm
      · subst hse
        have := (dropDupAux_mem t seen r hr).1
        rw [← he] at this
        exact absurd ha this
      · exact ih seen htail r hr s hsm he
    · rw [if_neg ha] at hr
      rcases List.mem_cons.mp hr with hre | hrm
      · subst hre
        rcases List.mem_cons.mp hs with hse | hsm
        · subst hse
          exact Nat.le_refl _
        · exact recLE_same_name (hhead s hsm) he.symm
      · rcases List.mem_cons.mp hs with hse | hsm
        · subst hse
          have := (dropDupAux_mem t _ r hrm).1
          rw [← he] at this
          exact absurd (List.mem_cons_self _ _) this
        · exact ih _ htail r hrm s hsm he

/-! ### Claims -/

/-- C1 (counterexample): the deduplication of `main_fixed_fetch` keys on
the raw `object_name`, not on the canonical key: for the Kepler record
`K00001.01` and the TESS record `1.01`, whose raw names differ but whose
normalized names coincide, both records survive deduplication, so the
output is not unique by canonical key and the colliding pair is not
collapsed to one record. -/
theorem c1_dedupe_counterexample :
    dedupe [⟨"Kepler", "K00001.01", "CANDIDATE"⟩, ⟨"TESS", "1.01", "CANDIDATE"⟩] =
      [⟨"TESS", "1.01", "CANDIDATE"⟩, ⟨"Kepler", "K00001.01", "CANDIDATE"⟩] ∧
    normalize_object_name (some "K00001.01") = normalize_object_name (some "1.01") := by
  decide

/-- C1 (amended): the Deduplication Engine's output is unique by raw
`object_name`; among all records sharing one raw name it keeps a record
of best disposition priority (CONFIRMED=1 < CANDIDATE=2 < FALSE
POSITIVE=3, anything else last), and every input raw name is
represented. -/
theorem dedupe_unique_by_raw_name (l : List SRecord) :
    (dedupe l).Pairwise (fun a b => a.object_name ≠ b.object_name) ∧
    (∀ r ∈ dedupe l, ∀ s ∈ l, s.object_name = r.object_name →
      priorityOf r.disposition ≤ priorityOf s.disposition) ∧
    (∀ s ∈ l, ∃ r ∈ dedupe l, r.object_name = s.object_name) := by
  refine ⟨dropDupAux_pairwise _ [], ?_, ?_⟩
  · intro r hr s hs he
    have hsorted : (List.insertionSort recLE l).Pairwise recLE :=
      List.sorted_insertionSort recLE l
    have hs2 : s ∈ List.insertionSort recLE l :=
      (List.mem_insertionSort recLE).mpr hs
    exact dropDupAux_min_prio _ [] hsorted r hr s hs2 he
  · intro s hs
    have hs2 : s ∈ List.insertionSort recLE l :=
      (List.mem_insertionSort recLE).mpr hs
    rcases dropDupAux_covers _ [] s hs2 with h | h
    · simp at h
    · exact h

/-- C1 (witness): on three records sharing raw name `9.01` with the three
dispositions, the kept record's priority is at most the FALSE POSITIVE
one's. -/
theorem dedupe_unique_by_raw_name_witness :
    priorityOf (SRecord.mk "M2" "9.01" "CONFIRMED").disposition ≤
      priorityOf (SRecord.mk "M1" "9.01" "FALSE POSITIVE").disposition :=
  (dedupe_unique_by_raw_name
      [⟨"M1", "9.01", "FALSE POSITIVE"⟩, ⟨"M2", "9.01", "CONFIRMED"⟩,
       ⟨"M3", "9.01", "CANDIDATE"⟩]).2.1
    ⟨"M2", "9.01", "CONFIRMED"⟩ (by decide)
    ⟨"M1", "9.01", "FALSE POSITIVE"⟩ (by decide) rfl

/-- C2 (counterexample): the converter reconciliation path maps the TESS
raw code `CP` to CANDIDATE, not CONFIRMED, so `CP` does not map to
CONFIRMED in every reconciliation path of the system. -/
theorem c2_converter_cp_counterexample :
    convertTessDisposition "CP" = "CANDIDATE" ∧
    convertTessDisposition "CP" ≠ "CONFIRMED" := by
  decide

/-- C2 (amended): the extended reconciler maps TESS `CP` and `KP` to
CONFIRMED; the converter path agrees on `KP` but maps `CP` to CANDIDATE,
a genuine inconsistency between the two paths. -/
theorem tess_cp_kp_reconciliation :
    normalize_disposition_extended "TESS" "CP" = "CONFIRMED" ∧
    normalize_disposition_extended "TESS" "KP" = "CONFIRMED" ∧
    convertTessDisposition "KP" = "CONFIRMED" ∧
    convertTessDisposition "CP" = "CANDIDATE" := by
  decide

/-- C3: every output record of the Prediction Matcher carries disposition
CONFIRMED exactly when its prediction's probability is at least the
threshold, and FALSE POSITIVE otherwise; equality with the threshold
yields CONFIRMED. -/
theorem match_threshold_rule (predictions : List Prediction)
    (all_data : List CanonicalRecord) (threshold : ℚ)
    (out : List CanonicalRecord) (i : Nat) (p : Prediction)
    (hok : match_predictions_with_data predictions all_data threshold =
           Except.ok out)
    (hp : predictions[i]? = some p) :
    out[i]?.map (fun r => r.disposition) =
      some (if p.predicted_probability ≥ threshold then "CONFIRMED"
            else "FALSE POSITIVE") ∧
    (p.predicted_probability = threshold →
      out[i]?.map (fun r => r.disposition) = some "CONFIRMED") := by
  have hout := match_ok_elim _ _ _ _ hok
  subst hout
  have hi := matchAll_getElem (buildLookup all_data) threshold predictions 0 i p hp
  rw [Nat.zero_add] at hi
  have hdisp : (matchRow (buildLookup all_data) threshold i p).disposition =
      (if p.predicted_probability ≥ threshold then "CONFIRMED"
       else "FALSE POSITIVE") := by
    unfold matchRow
    cases lookupFind (buildLookup all_data)
        (normalize_object_name p.object_name) <;> rfl
  constructor
  · rw [hi]
    exact congrArg some hdisp
  · intro he
    rw [hi]
    refine congrArg some ?_
    show (matchRow (buildLookup all_data) threshold i p).disposition = "CONFIRMED"
    rw [hdisp, if_pos (ge_of_eq he)]

/-- C3 (witness): one prediction with probability exactly equal to the
threshold is classified CONFIRMED. -/
theorem match_threshold_rule_witness :
    ([⟨"ARCHIVE", some "PLANET_0", "CONFIRMED", none, none, none, none, none,
        "UNKNOWN"⟩] : List CanonicalRecord)[0]?.map (fun r => r.disposition) =
      some (if (0 : ℚ) ≥ 0 then "CONFIRMED" else "FALSE POSITIVE") ∧
    ((0 : ℚ) = 0 →
      ([⟨"ARCHIVE", some "PLANET_0", "CONFIRMED", none, none, none, none, none,
          "UNKNOWN"⟩] : List CanonicalRecord)[0]?.map (fun r => r.disposition) =
        some "CONFIRMED") :=
  match_threshold_rule [⟨some "119.01", 0⟩] [] 0
    [⟨"ARCHIVE", some "PLANET_0", "CONFIRMED", none, none, none, none, none,
      "UNKNOWN"⟩] 0 ⟨some "119.01", 0⟩ rfl rfl

/-- C4: a prediction whose nonempty canonical key matches the data emits a
copy of the first-seen record with that key, with only the disposition
overwritten to the predicted disposition. -/
theorem match_copies_first_seen (predictions : List Prediction)
    (all_data : List CanonicalRecord) (threshold : ℚ)
    (out : List CanonicalRecord) (i : Nat) (p : Prediction)
    (r : CanonicalRecord)
    (hok : match_predictions_with_data predictions all_data threshold =
           Except.ok out)
    (hp : predictions[i]? = some p)
    (hkey : normalize_object_name p.object_name ≠ "")
    (hfirst : all_data.find?
        (fun rec => normalize_object_name rec.object_name ==
          normalize_object_name p.object_name) = some r) :
    out[i]? = some { r with disposition :=
      if p.predicted_probability ≥ threshold then "CONFIRMED"
      else "FALSE POSITIVE" } := by
  have hout := match_ok_elim _ _ _ _ hok
  subst hout
  have hla : lookupFind (buildLookup all_data)
      (normalize_object_name p.object_name) = some r := by
    rw [buildLookup, buildLookupAux_first_seen all_data [] _ hkey rfl]
    exact hfirst
  have hi := matchAll_getElem (buildLookup all_data) threshold predictions 0 i p hp
  rw [Nat.zero_add] at hi
  rw [hi]
  unfold matchRow
  rw [hla]

/-- C4 (witness): the archival record for `K00711.03` is matched by the
prediction `711.03` and carried through with only the disposition
replaced. -/
theorem match_copies_first_seen_witness :
    ([⟨"Kepler", some "K00711.03", "CONFIRMED", some 124, some 2, some 5497,
        some 1, some 1, "Kepler"⟩] : List CanonicalRecord)[0]? =
      some { (⟨"Kepler", some "K00711.03", "CANDIDATE", some 124, some 2,
          some 5497, some 1, some 1, "Kepler"⟩ : CanonicalRecord) with
        disposition :=
          if (1 : ℚ) ≥ 0 then "CONFIRMED" else "FALSE POSITIVE" } :=
  match_copies_first_seen [⟨some "711.03", 1⟩]
    [⟨"Kepler", some "K00711.03", "CANDIDATE", some 124, some 2, some 5497,
      some 1, some 1, "Kepler"⟩] 0
    [⟨"Kepler", some "K00711.03", "CONFIRMED", some 124, some 2, some 5497,
      some 1, some 1, "Kepler"⟩] 0 ⟨some "711.03", 1⟩
    ⟨"Kepler", some "K00711.03", "CANDIDATE", some 124, some 2, some 5497,
      some 1, some 1, "Kepler"⟩
    rfl rfl (by decide) rfl

/-- C5: no prediction is dropped — the output has one record per input
prediction, in input order — and an unmatched prediction at zero-based
position `i` becomes the placeholder record with mission `ARCHIVE`, name
`PLANET_i`, the predicted disposition, unknown physical fields and
facility `UNKNOWN`. -/
theorem match_placeholder_per_prediction (predictions : List Prediction)
    (all_data : List CanonicalRecord) (threshold : ℚ)
    (out : List CanonicalRecord)
    (hok : match_predictions_with_data predictions all_data threshold =
           Except.ok out) :
    out.length = predictions.length ∧
    ∀ (i : Nat) (p : Prediction), predictions[i]? = some p →
      lookupFind (buildLookup all_data) (normalize_object_name p.object_name) =
        none →
      out[i]? = some
        { mission := "ARCHIVE", object_name := some ("PLANET_" ++ toString i),
          disposition := if p.predicted_probability ≥ threshold then "CONFIRMED"
                         else "FALSE POSITIVE",
          period := none, planet_radius := none, star_temp := none,
          star_radius := none, star_mass := none,
          discovery_facility := "UNKNOWN" } := by
  have hout := match_ok_elim _ _ _ _ hok
  subst hout
  refine ⟨matchAll_length _ _ 0 predictions, ?_⟩
  intro i p hp hnone
  have hi := matchAll_getElem (buildLookup all_data) threshold predictions 0 i p hp
  rw [Nat.zero_add] at hi
  rw [hi]
  unfold matchRow
  rw [hnone]

/-- C5 (witness): the unmatched prediction `999.99` with probability 0
below threshold 1 yields the `PLANET_0` FALSE POSITIVE placeholder, and
the output length equals the input length. -/
theorem match_placeholder_per_prediction_witness :
    ([⟨"ARCHIVE", some "PLANET_0", "FALSE POSITIVE", none, none, none, none,
        none, "UNKNOWN"⟩] : List CanonicalRecord).length =
      ([⟨some "999.99", 0⟩] : List Prediction).length ∧
    ([⟨"ARCHIVE", some "PLANET_0", "FALSE POSITIVE", none, none, none, none,
        none, "UNKNOWN"⟩] : List CanonicalRecord)[0]? = some
      { mission := "ARCHIVE", object_name := some ("PLANET_" ++ toString 0),
        disposition := if (0 : ℚ) ≥ 1 then "CONFIRMED" else "FALSE POSITIVE",
        period := none, planet_radius := none, star_temp := none,
        star_radius := none, star_mass := none,
        discovery_facility := "UNKNOWN" } :=
  ⟨(match_placeholder_per_prediction [⟨some "999.99", 0⟩] [] 1
      [⟨"ARCHIVE", some "PLANET_0", "FALSE POSITIVE", none, none, none, none,
        none, "UNKNOWN"⟩] rfl).1,
   (match_placeholder_per_prediction [⟨some "999.99", 0⟩] [] 1
      [⟨"ARCHIVE", some "PLANET_0", "FALSE POSITIVE", none, none, none, none,
        none, "UNKNOWN"⟩] rfl).2 0 ⟨some "999.99", 0⟩ rfl rfl⟩

/-- C6: the Identifier Normalizer strips one recognized mission tag and
the leading zeros of a purely numeric head on the spec's examples. -/
theorem normalize_object_name_examples :
    normalize_object_name (some "K00711.03") = "711.03" ∧
    normalize_object_name (some "711.03") = "711.03" ∧
    normalize_object_name (some "TOI-1468.01") = "1468.01" ∧
    normalize_object_name (some "EPIC 201367065") = "201367065" := by
  decide

/-- C7: the normalizer is total — missing and empty input both normalize
to the empty string — and the empty key is never a key of the matcher's
lookup, so no prediction can match an archival record whose normalized
name is empty. -/
theorem normalize_total_empty_key_never_matches :
    normalize_object_name none = "" ∧
    normalize_object_name (some "") = "" ∧
    ∀ all_data : List CanonicalRecord,
      lookupFind (buildLookup all_data) "" = none := by
  refine ⟨rfl, rfl, ?_⟩
  intro all_data
  exact buildLookupAux_no_empty_key all_data [] rfl

/-- C8 (counterexample): `K 0123.01` normalizes to `0123.01`, which starts
with no recognized mission tag, yet a second normalization pass changes
it to `123.01`: idempotence fails outside the claim's double-tag
carve-out. -/
theorem c8_idempotence_counterexample :
    hasMissionTag (normalize_object_name (some "K 0123.01")).data = false ∧
    normalize_object_name (some (normalize_object_name (some "K 0123.01"))) ≠
      normalize_object_name (some "K 0123.01") := by
  decide

/-- C8 (amended): normalization is idempotent on every input whose
normalized form neither starts with a recognized mission tag nor has a
pre-decimal head that leading-zero canonicalization would still change
(the latter arises when tag stripping exposes whitespace before a
zero-padded numeric head). -/
theorem normalize_object_name_idem (s : Option String)
    (h1 : hasMissionTag (normalize_object_name s).data = false)
    (h2 : canonHead ((normalize_object_name s).data.takeWhile (fun c => c ≠ '.')) =
          (normalize_object_name s).data.takeWhile (fun c => c ≠ '.')) :
    normalize_object_name (some (normalize_object_name s)) =
      normalize_object_name s := by
  have h := normalizeL_idem (s.map String.data) h1 h2
  exact congrArg String.mk h

/-- C8 (witness): a second pass over the already canonical `711.03` is the
identity. -/
theorem normalize_object_name_idem_witness :
    normalize_object_name (some (normalize_object_name (some "711.03"))) =
      normalize_object_name (some "711.03") :=
  normalize_object_name_idem (some "711.03") (by decide) (by decide)

/-- C9 (counterexample): a Kepler raw row with its identifier and
disposition columns but no physical-measurement columns makes the Kepler
mapper raise a `KeyError` instead of substituting the unknown marker,
while the analogous TESS row maps fine — the claim fails for Kepler. -/
theorem c9_kepler_missing_column_counterexample :
    convert_kepler_row
        ⟨[("kepoi_name", "K00001.01"), ("koi_disposition", "CANDIDATE")], []⟩ =
      Except.error "KeyError: koi_period" ∧
    convert_tess_row ⟨[("toi", "1001.01"), ("tfopwg_disp", "PC")], []⟩ =
      Except.ok ⟨"TESS", some "1001.01", "CANDIDATE", none, none, none, none,
        none, "TESS"⟩ :=
  ⟨rfl, rfl⟩

/-- C9 (amended): the TESS and K2 mappers tolerate entirely absent
optional physical columns, substituting the unknown marker, while the
Kepler mapper fails on any row whose `koi_period` column is absent. -/
theorem optional_columns_tess_k2_not_kepler (row : RawRow) :
    (∀ c, getNumCol row c = none → optionalNum row c = none) ∧
    (∀ name disp, getStrCol row "toi" = some name →
      getStrCol row "tfopwg_disp" = some disp →
      convert_tess_row row = Except.ok
        { mission := "TESS", object_name := some name,
          disposition := convertTessDisposition disp,
          period := optionalNum row "pl_orbper",
          planet_radius := optionalNum row "pl_rade",
          star_temp := optionalNum row "st_teff",
          star_radius := optionalNum row "st_rad",
          star_mass := optionalNum row "st_mass",
          discovery_facility := "TESS" }) ∧
    (∀ name disp, getStrCol row "epic_name" = some name →
      getStrCol row "k2c_disp" = some disp →
      convert_k2_row row = Except.ok
        { mission := "K2", object_name := some name, disposition := disp,
          period := optionalNum row "pl_orbper",
          planet_radius := optionalNum row "pl_rade",
          star_temp := optionalNum row "st_teff",
          star_radius := optionalNum row "st_rad",
          star_mass := optionalNum row "st_mass",
          discovery_facility := "K2" }) ∧
    (getNumCol row "koi_period" = none →
      ∀ rec, convert_kepler_row row ≠ Except.ok rec) := by
  refine ⟨?_, ?_, ?_, ?_⟩
  · intro c hc
    unfold optionalNum
    rw [hc]
    rfl
  · intro name disp hname hdisp
    unfold convert_tess_row requireStr
    rw [hname, hdisp]
    rfl
  · intro name disp hname hdisp
    unfold convert_k2_row requireStr
    rw [hname, hdisp]
    rfl
  · intro habs rec
    unfold convert_kepler_row requireStr requireNum
    cases h1 : getStrCol row "kepoi_name" with
    | none => simp [h1, Bind.bind, Except.bind]
    | some v1 =>
      cases h2 : getStrCol row "koi_disposition" with
      | none => simp [h2, Bind.bind, Except.bind]
      | some v2 =>
        simp [habs, Bind.bind, Except.bind]

/-- C9 (witness): at a concrete row carrying `toi`, `tfopwg_disp`,
`epic_name` and `k2c_disp` but no numeric columns, the TESS and K2
mappers succeed with all-unknown physical fields and the Kepler mapper
does not return a record. -/
theorem optional_columns_tess_k2_not_kepler_witness :
    convert_tess_row ⟨[("toi", "1001.01"), ("tfopwg_disp", "PC"),
        ("epic_name", "EPIC 1"), ("k2c_disp", "C")], []⟩ =
      Except.ok
        { mission := "TESS", object_name := some "1001.01",
          disposition := convertTessDisposition "PC",
          period := optionalNum ⟨[("toi", "1001.01"), ("tfopwg_disp", "PC"),
            ("epic_name", "EPIC 1"), ("k2c_disp", "C")], []⟩ "pl_orbper",
          planet_radius := optionalNum ⟨[("toi", "1001.01"),
            ("tfopwg_disp", "PC"), ("epic_name", "EPIC 1"),
            ("k2c_disp", "C")], []⟩ "pl_rade",
          star_temp := optionalNum ⟨[("toi", "1001.01"), ("tfopwg_disp", "PC"),
            ("epic_name", "EPIC 1"), ("k2c_disp", "C")], []⟩ "st_teff",
          star_radius := optionalNum ⟨[("toi", "1001.01"),
            ("tfopwg_disp", "PC"), ("epic_name", "EPIC 1"),
            ("k2c_disp", "C")], []⟩ "st_rad",
          star_mass := optionalNum ⟨[("toi", "1001.01"), ("tfopwg_disp", "PC"),
            ("epic_name", "EPIC 1"), ("k2c_disp", "C")], []⟩ "st_mass",
          discovery_facility := "TESS" } ∧
    convert_kepler_row ⟨[("toi", "1001.01"), ("tfopwg_disp", "PC"),
        ("epic_name", "EPIC 1"), ("k2c_disp", "C")], []⟩ ≠
      Except.ok ⟨"Kepler", some "x", "CANDIDATE", none, none, none, none, none,
        "Kepler"⟩ :=
  ⟨(optional_columns_tess_k2_not_kepler ⟨[("toi", "1001.01"),
      ("tfopwg_disp", "PC"), ("epic_name", "EPIC 1"), ("k2c_disp", "C")],
      []⟩).2.1 "1001.01" "PC" rfl rfl,
   (optional_columns_tess_k2_not_kepler ⟨[("toi", "1001.01"),
      ("tfopwg_disp", "PC"), ("epic_name", "EPIC 1"), ("k2c_disp", "C")],
      []⟩).2.2.2 rfl
     ⟨"Kepler", some "x", "CANDIDATE", none, none, none, none, none,
      "Kepler"⟩⟩

/-- C10: the Prediction Matcher fails (the reindex of the empty,
column-less frame raises) exactly when the prediction sequence is empty;
with at least one prediction it returns a result table. -/
theorem match_requires_nonempty_predictions (predictions : List Prediction)
    (all_data : List CanonicalRecord) (threshold : ℚ) :
    (predictions = [] →
      match_predictions_with_data predictions all_data threshold =
        Except.error "KeyError: canonical columns not in index") ∧
    (predictions ≠ [] →
      ∃ out, match_predictions_with_data predictions all_data threshold =
        Except.ok out) := by
  constructor
  · intro h
    subst h
    rfl
  · intro h
    cases predictions with
    | nil => exact absurd rfl h
    | cons p ps =>
      refine ⟨matchAll (buildLookup all_data) threshold 0 (p :: ps), ?_⟩
      unfold match_predictions_with_data
      rw [matchAll]
      rfl

/-- C10 (witness): zero predictions fail with the reindex error; one
prediction succeeds. -/
theorem match_requires_nonempty_predictions_witness :
    match_predictions_with_data [] [] 0 =
      Except.error "KeyError: canonical columns not in index" ∧
    ∃ out, match_predictions_with_data [⟨some "1.01", 0⟩] [] 0 =
      Except.ok out :=
  ⟨(match_requires_nonempty_predictions [] [] 0).1 rfl,
   (match_requires_nonempty_predictions [⟨some "1.01", 0⟩] [] 0).2
     (List.cons_ne_nil _ _)⟩

end Exo
